import Mathlib

/-!
Verification development for the SmartIR repository.

Shallow embedding of:
  * `custom_components/smartir/controller.py` — controller registry,
    encoding checks, and the MQTT / UFO-R11 `send` behaviour;
  * `scripts/send_toshiba_commands.py` — the standalone batch tester:
    command-table flattening, the MQTT connection handshake with its
    timeout loop, the interactive send loop, and teardown.

Python dicts are embedded as association lists (preserving insertion
order, which is exactly Python's iteration order); effects (MQTT
publishes, prompts, teardown calls) are embedded as explicit event
traces; fallible operations return `Except`.
-/

namespace SmartIR

/-- JSON-shaped values, as produced by `json.load`.  Python dict
iteration order is insertion order, so an object is an ordered
association list.  `num`, `bool`, `arr` and `null` cover the values that
are neither strings nor mappings (the flattening code never looks inside
them). -/
inductive JValue where
  | str : String → JValue
  | obj : List (String × JValue) → JValue
  | num : Int → JValue
  | bool : Bool → JValue
  | arr : List JValue → JValue
  | null : JValue

/-! ### Python `json.dumps` for strings

`json.dumps` with default options (`ensure_ascii=True`) emits `"` and
`\` and everything outside the printable ASCII range `0x20`–`0x7e`
escaped: the two-character shorthands for `\b \t \n \f \r \" \\`, and
`\uXXXX` (lowercase hex, surrogate pairs above the BMP) for the rest. -/

/-- Lowercase hexadecimal digit. -/
def hexDigit (n : Nat) : Char :=
  if n < 10 then Char.ofNat (48 + n) else Char.ofNat (87 + n)

/-- Four lowercase hex digits, as in Python's `'\\u%04x'`. -/
def hex4 (n : Nat) : String :=
  String.mk [hexDigit (n / 4096 % 16), hexDigit (n / 256 % 16),
             hexDigit (n / 16 % 16), hexDigit (n % 16)]

/-- Escape of a single character, following CPython's
`json.encoder.py_encode_basestring_ascii`. -/
def py_json_escape_char (c : Char) : String :=
  if c = '\\' then "\\\\"
  else if c = '"' then "\\\""
  else if c = '\x08' then "\\b"
  else if c = '\x0c' then "\\f"
  else if c = '\n' then "\\n"
  else if c = '\r' then "\\r"
  else if c = '\t' then "\\t"
  else if 0x20 ≤ c.toNat ∧ c.toNat ≤ 0x7e then String.singleton c
  else if c.toNat < 0x10000 then "\\u" ++ hex4 c.toNat
  else
    "\\u" ++ hex4 (0xd800 + (c.toNat - 0x10000) / 0x400)
      ++ "\\u" ++ hex4 (0xdc00 + (c.toNat - 0x10000) % 0x400)

/-- Python `json.dumps` applied to a single string. -/
def py_json_quote (s : String) : String :=
  "\"" ++ String.join (s.data.map py_json_escape_char) ++ "\""

/-- Python `json.dumps` applied to a one-key dict whose key and value are
strings, e.g. `json.dumps({"ir_code_to_send": command})`; default
separators put `": "` between key and value. -/
def json_dumps_single_str (key val : String) : String :=
  "\x7b" ++ py_json_quote key ++ ": " ++ py_json_quote val ++ "\x7d"

/-! ### `extract_all_commands` (scripts/send_toshiba_commands.py)

Source embedding of `extract_recursive`: walk the structure; inside a
dict, a string value is a command at the current dot-joined path, any
other value is recursed into (and a non-dict contributes nothing).  The
Python code appends to a shared accumulator during a depth-first walk;
the embedding returns the same list by concatenation. -/

mutual

/-- `extract_recursive(obj, path)` from the script: only a dict
produces commands; every other value is a no-op. -/
def extract_recursive : JValue → String → List (String × String)
  | .obj entries, path => extract_entries entries path
  | _, _ => []

/-- The `for key, value in obj.items()` loop of `extract_recursive`,
with `current_path = f"{path}.{key}" if path else key`. -/
def extract_entries : List (String × JValue) → String → List (String × String)
  | [], _ => []
  | (key, value) :: rest, path =>
    let current_path := if path = "" then key else path ++ "." ++ key
    (match value with
      | .str s => [(current_path, s)]
      | v => extract_recursive v current_path) ++ extract_entries rest path

end

/-- `extract_all_commands(commands)` from the script. -/
def extract_all_commands (commands : JValue) : List (String × String) :=
  extract_recursive commands ""

/-! ### Spec-side description of the flattening

The specification describes the result as the pre-order depth-first walk
of the nested mapping, each leaf tagged with the full sequence of keys
from the root, joined with dots.  These definitions follow the spec's
words and are compared with the source embedding above. -/

mutual

/-- Spec-side: the string leaves of a table in pre-order, each with the
sequence of keys from the root to the leaf. -/
def preorderLeaves : JValue → List (List String × String)
  | .obj entries => preorderEntries entries
  | _ => []

/-- Spec-side pre-order walk of the entries of one mapping, sibling
order being the table's own key order. -/
def preorderEntries : List (String × JValue) → List (List String × String)
  | [] => []
  | (k, v) :: rest =>
    (match v with
      | .str s => [([k], s)]
      | v => (preorderLeaves v).map (fun pr => (k :: pr.1, pr.2))) ++
    preorderEntries rest

end

mutual

/-- Spec-side: number of string leaves of a table. -/
def countStringLeaves : JValue → Nat
  | .obj entries => countStringLeavesEntries entries
  | _ => 0

/-- Spec-side: number of string leaves under a list of entries. -/
def countStringLeavesEntries : List (String × JValue) → Nat
  | [] => 0
  | (_, v) :: rest =>
    (match v with
      | .str _ => 1
      | v => countStringLeaves v) + countStringLeavesEntries rest

end

/-- Spec-side: the dot-joined rendering of a sequence of keys
("the dot-joined sequence of keys from the root to that leaf"). -/
def dotJoined : List String → String
  | [] => ""
  | [k] => k
  | k :: ks => k ++ "." ++ dotJoined ks

/-- The path-joining the script actually performs, folded over a key
sequence: a key is appended as `acc ++ "." ++ key` unless the
accumulated path is empty, in which case the key replaces it. -/
def extendPath (path : String) (keys : List String) : String :=
  keys.foldl (fun acc k => if acc = "" then k else acc ++ "." ++ k) path

mutual

/-- No key anywhere in the table is the empty string. -/
def noEmptyKey : JValue → Bool
  | .obj entries => noEmptyKeyEntries entries
  | _ => true

/-- No key in these entries (recursively) is the empty string. -/
def noEmptyKeyEntries : List (String × JValue) → Bool
  | [] => true
  | (k, v) :: rest => (decide (k ≠ "")) && noEmptyKey v && noEmptyKeyEntries rest

end

/-! ### `custom_components/smartir/controller.py` -/

def MQTT_CONTROLLER : String := "MQTT"
def UFOR11_CONTROLLER : String := "UFOR11"

def ENC_BASE64 : String := "Base64"
def ENC_HEX : String := "Hex"
def ENC_PRONTO : String := "Pronto"
def ENC_RAW : String := "Raw"

def MQTT_COMMANDS_ENCODING : List String := [ENC_RAW]
def UFOR11_COMMANDS_ENCODING : List String := [ENC_RAW]

/-- The two concrete controller classes of the module. -/
inductive ControllerVariant where
  | MQTTController : ControllerVariant
  | UFOR11Controller : ControllerVariant
deriving DecidableEq, Repr

/-- The fields `AbstractController.__init__` stores (`hass` is opaque
and irrelevant to the modelled behaviour, so it is omitted). -/
structure ControllerState where
  variant : ControllerVariant
  controller : String
  encoding : String
  controller_data : String
  delay : Nat
deriving DecidableEq, Repr

/-- One `hass.services.async_call('mqtt', 'publish', service_data)`
with its `topic` and `payload`. -/
structure Publish where
  topic : String
  payload : String
deriving DecidableEq, Repr

/-- `MQTTController.check_encoding`. -/
def MQTTController.check_encoding (encoding : String) : Except String Unit :=
  if encoding ∈ MQTT_COMMANDS_ENCODING then .ok ()
  else .error "The encoding is not supported by the mqtt controller."

/-- `UFOR11Controller.check_encoding`. -/
def UFOR11Controller.check_encoding (encoding : String) : Except String Unit :=
  if encoding ∈ UFOR11_COMMANDS_ENCODING then .ok ()
  else .error "The encoding is not supported by the UFO-R11 controller."

/-- Dynamic dispatch of the abstract method `check_encoding`. -/
def check_encoding (v : ControllerVariant) (encoding : String) : Except String Unit :=
  match v with
  | .MQTTController => MQTTController.check_encoding encoding
  | .UFOR11Controller => UFOR11Controller.check_encoding encoding

/-- `AbstractController.__init__`: runs `check_encoding` first, then
stores the fields.  The second component is the trace of MQTT publishes
performed during construction; the source constructor contains no
service call, so that trace is empty on both outcomes. -/
def AbstractController.init (variant : ControllerVariant)
    (controller encoding controller_data : String) (delay : Nat) :
    Except String ControllerState × List Publish :=
  match check_encoding variant encoding with
  | .error e => (.error e, [])
  | .ok _ => (.ok ⟨variant, controller, encoding, controller_data, delay⟩, [])

/-- The `controllers` dict built (but never consulted) by
`get_controller`. -/
def controllers_registry : List (String × ControllerVariant) :=
  [(MQTT_CONTROLLER, .MQTTController), (UFOR11_CONTROLLER, .UFOR11Controller)]

/-- `get_controller(hass, controller, encoding, controller_data, delay)`.
The source builds the `controllers` dict and then ignores it: the body
is `return UFOR11Controller(hass, controller, encoding, controller_data,
delay)` (the dict lookup is commented out), so every request constructs
a `UFOR11Controller`.  The `except KeyError` branch that raises
"The controller is not supported." is unreachable: no dict subscript is
executed and the constructor raises a plain `Exception`, which
propagates unchanged. -/
def get_controller (controller encoding controller_data : String) (delay : Nat) :
    Except String ControllerState :=
  (AbstractController.init .UFOR11Controller controller encoding controller_data delay).1

/-- `MQTTController.send`: one publish with the command string
verbatim as payload, to the configured `controller_data` topic. -/
def MQTTController.send (self : ControllerState) (command : String) : List Publish :=
  [⟨self.controller_data, command⟩]

/-- `UFOR11Controller.send`: one publish whose payload is
`json.dumps({"ir_code_to_send": command})`, to the configured
`controller_data` topic. -/
def UFOR11Controller.send (self : ControllerState) (command : String) : List Publish :=
  [⟨self.controller_data, json_dumps_single_str "ir_code_to_send" command⟩]

/-- Dynamic dispatch of `send` on the runtime class of the controller. -/
def ControllerState.send (self : ControllerState) (command : String) : List Publish :=
  match self.variant with
  | .MQTTController => MQTTController.send self command
  | .UFOR11Controller => UFOR11Controller.send self command

/-- The documented supported-encoding set of each variant. -/
def supported_encodings : ControllerVariant → List String
  | .MQTTController => MQTT_COMMANDS_ENCODING
  | .UFOR11Controller => UFOR11_COMMANDS_ENCODING

/-- The error message `check_encoding` raises for each variant. -/
def unsupported_encoding_message : ControllerVariant → String
  | .MQTTController => "The encoding is not supported by the mqtt controller."
  | .UFOR11Controller => "The encoding is not supported by the UFO-R11 controller."

/-! ### `scripts/send_toshiba_commands.py` — the batch runner

The runner's externally visible behaviour is embedded as a trace of
events.  The nondeterminism of the environment (when the broker's
connected-callback fires, whether each `client.publish` succeeds,
whether `self.connected` still holds when a command is sent, what the
operator answers at each prompt, and whether an external interruption
or unexpected exception hits an iteration) is resolved by an explicit
oracle record. -/

/-- Observable events of one run of the script. -/
inductive Event where
  | connectAttempt : Event
  | sendCall : String → Event
  | publishAttempt : String → String → Event
  | warnFailed : String → Event
  | prompt : Event
  | loopStop : Event
  | clientDisconnect : Event
deriving DecidableEq, Repr

/-- Environment oracle for one run.  Command indices are 1-based, as in
`enumerate(all_commands, 1)`. -/
structure Oracles where
  /-- Half-second step at which `_on_connect` fires with `rc == 0`
  (`none` = it never fires, or fires with a non-zero `rc`). -/
  callbackAt : Option Nat
  /-- Whether `self.connected` still holds when command `i` is sent. -/
  connectedAt : Nat → Bool
  /-- Whether `client.publish` for command `i` returns
  `MQTT_ERR_SUCCESS` (a raised exception inside `send_command` is
  likewise a `False` outcome). -/
  pubRcOk : Nat → Bool
  /-- `get_user_confirmation()` after command `i`: `true` iff the
  stripped, lowered response is not the quit signal. -/
  userContinues : Nat → Bool
  /-- `some i`: a `KeyboardInterrupt` or unexpected exception hits the
  loop at the start of iteration `i` (`none`: no interruption). -/
  abortAt : Option Nat

/-- Has the connected-callback fired by half-second step `elapsed`? -/
def connected_after (callbackAt : Option Nat) (elapsed : Nat) : Bool :=
  match callbackAt with
  | none => false
  | some t => t ≤ elapsed

/-- The polling loop of `ToshibaMQTTTester.connect`:
`while not self.connected and timeout > 0: time.sleep(0.5); timeout -= 0.5`
followed by the final `if not self.connected: return False`.  `fuel`
counts the remaining half-second polls. -/
def connect_wait (callbackAt : Option Nat) : Nat → Nat → Bool
  | elapsed, 0 => connected_after callbackAt elapsed
  | elapsed, fuel + 1 =>
    if connected_after callbackAt elapsed then true
    else connect_wait callbackAt (elapsed + 1) fuel

/-- `timeout = 10` seconds, polled in `0.5` second steps. -/
def CONNECT_TIMEOUT_STEPS : Nat := 20

/-- `ToshibaMQTTTester.connect`: true iff the connected-callback fires
within the 10-second bound. -/
def ToshibaMQTTTester.connect (o : Oracles) : Bool :=
  connect_wait o.callbackAt 0 CONNECT_TIMEOUT_STEPS

/-- `ToshibaMQTTTester.send_command(command_name, command_data)` for
command `i`: if `self.connected` is false it logs and returns `False`
without touching the client; otherwise it publishes
`json.dumps({"ir_code_to_send": command_data})` to the configured topic
and returns whether `rc == MQTT_ERR_SUCCESS`. -/
def ToshibaMQTTTester.send_command (o : Oracles) (i : Nat)
    (topic name data : String) : List Event × Bool :=
  if o.connectedAt i then
    ([Event.sendCall name,
      Event.publishAttempt topic (json_dumps_single_str "ir_code_to_send" data)],
     o.pubRcOk i)
  else
    ([Event.sendCall name], false)

/-- `ToshibaMQTTTester.disconnect`: `self.client` is set (the run got
past `connect`), so it stops the background loop and disconnects. -/
def ToshibaMQTTTester.disconnect : List Event :=
  [Event.loopStop, Event.clientDisconnect]

/-- The `for i, (command_name, command_data) in enumerate(all_commands, 1)`
loop of `main`: send the command, log a warning on failure, and — except
after the last command (`i < n`) — prompt; a quit answer breaks out of
the loop.  An interruption at iteration `i` (oracle `abortAt`) ends the
loop there; the `finally` teardown is appended by `main` in every case. -/
def runLoop (o : Oracles) (topic : String) (n : Nat) :
    Nat → List (String × String) → List Event
  | _, [] => []
  | i, (name, data) :: rest =>
    if o.abortAt = some i then []
    else
      (ToshibaMQTTTester.send_command o i topic name data).1
      ++ (if (ToshibaMQTTTester.send_command o i topic name data).2 then []
          else [Event.warnFailed name])
      ++ (if i < n then
            Event.prompt ::
              (if o.userContinues i then runLoop o topic n (i + 1) rest else [])
          else runLoop o topic n (i + 1) rest)

/-- `main`, from the point where the commands mapping is in hand:
`commands = device_data.get('commands', {})`; `if not commands:
sys.exit(1)`; flatten; connect (exit `1` on failure); run the loop under
`try`, with `mqtt_client.disconnect()` in `finally`; return the process
exit status (`0` on a normal return, the caught `KeyboardInterrupt` and
`Exception` handlers do not change it). -/
def main (o : Oracles) (topic : String) (commands : List (String × JValue)) :
    List Event × Nat :=
  if commands.isEmpty then
    ([], 1)
  else
    let all_commands := extract_all_commands (JValue.obj commands)
    if ToshibaMQTTTester.connect o then
      (Event.connectAttempt ::
         (runLoop o topic all_commands.length 1 all_commands
           ++ ToshibaMQTTTester.disconnect), 0)
    else
      ([Event.connectAttempt], 1)

/-- Number of `sendCall` events in a trace (commands attempted). -/
def countSendCalls (tr : List Event) : Nat :=
  (tr.filter fun e => match e with | .sendCall _ => true | _ => false).length

/-! ### Lemmas about the flattening -/

theorem extract_entries_append (a b : List (String × JValue)) (path : String) :
    extract_entries (a ++ b) path
      = extract_entries a path ++ extract_entries b path := by
  induction a with
  | nil => rfl
  | cons kv rest ih =>
    obtain ⟨k, v⟩ := kv
    cases v <;> simp [extract_entries, ih, List.append_assoc]

theorem extendPath_cons (path k : String) (ks : List String) :
    extendPath path (k :: ks)
      = extendPath (if path = "" then k else path ++ "." ++ k) ks := rfl

mutual

theorem extract_recursive_eq : ∀ (t : JValue) (path : String),
    extract_recursive t path
      = (preorderLeaves t).map (fun pr => (extendPath path pr.1, pr.2))
  | .str _, _ => by simp [extract_recursive, preorderLeaves]
  | .num _, _ => by simp [extract_recursive, preorderLeaves]
  | .bool _, _ => by simp [extract_recursive, preorderLeaves]
  | .arr _, _ => by simp [extract_recursive, preorderLeaves]
  | .null, _ => by simp [extract_recursive, preorderLeaves]
  | .obj entries, path => by
      simp only [extract_recursive, preorderLeaves]
      exact extract_entries_eq entries path

theorem extract_entries_eq : ∀ (es : List (String × JValue)) (path : String),
    extract_entries es path
      = (preorderEntries es).map (fun pr => (extendPath path pr.1, pr.2))
  | [], _ => by simp [extract_entries, preorderEntries]
  | (k, v) :: rest, path => by
      have hrest := extract_entries_eq rest path
      cases v with
      | str s => simp [extract_entries, preorderEntries, hrest, extendPath]
      | obj es2 =>
          have hv := extract_recursive_eq (.obj es2)
            (if path = "" then k else path ++ "." ++ k)
          simp [extract_entries, preorderEntries, hrest, hv, List.map_map,
            Function.comp, extendPath, List.foldl_cons]
      | num n =>
          simp [extract_entries, preorderEntries, hrest, extract_recursive,
            preorderLeaves]
      | bool bb =>
          simp [extract_entries, preorderEntries, hrest, extract_recursive,
            preorderLeaves]
      | arr l =>
          simp [extract_entries, preorderEntries, hrest, extract_recursive,
            preorderLeaves]
      | null =>
          simp [extract_entries, preorderEntries, hrest, extract_recursive,
            preorderLeaves]

end

mutual

theorem preorderLeaves_length : ∀ t : JValue,
    (preorderLeaves t).length = countStringLeaves t
  | .str _ => by simp [preorderLeaves, countStringLeaves]
  | .num _ => by simp [preorderLeaves, countStringLeaves]
  | .bool _ => by simp [preorderLeaves, countStringLeaves]
  | .arr _ => by simp [preorderLeaves, countStringLeaves]
  | .null => by simp [preorderLeaves, countStringLeaves]
  | .obj entries => by
      simp only [preorderLeaves, countStringLeaves]
      exact preorderEntries_length entries

theorem preorderEntries_length : ∀ es : List (String × JValue),
    (preorderEntries es).length = countStringLeavesEntries es
  | [] => by simp [preorderEntries, countStringLeavesEntries]
  | (k, v) :: rest => by
      have hrest := preorderEntries_length rest
      cases v with
      | str s =>
          simp [preorderEntries, countStringLeavesEntries, hrest]
          omega
      | obj es2 =>
          have hv := preorderLeaves_length (.obj es2)
          simp [preorderEntries, countStringLeavesEntries, hrest, hv]
      | num n =>
          simp [preorderEntries, countStringLeavesEntries, hrest,
            preorderLeaves, countStringLeaves]
      | bool bb =>
          simp [preorderEntries, countStringLeavesEntries, hrest,
            preorderLeaves, countStringLeaves]
      | arr l =>
          simp [preorderEntries, countStringLeavesEntries, hrest,
            preorderLeaves, countStringLeaves]
      | null =>
          simp [preorderEntries, countStringLeavesEntries, hrest,
            preorderLeaves, countStringLeaves]

end

theorem preorderEntries_head_key : ∀ es : List (String × JValue),
    noEmptyKeyEntries es = true →
    ∀ pr ∈ preorderEntries es, ∃ k ks, pr.1 = k :: ks ∧ k ≠ "" := by
  intro es
  induction es with
  | nil => intro _ pr hpr; simp [preorderEntries] at hpr
  | cons kv rest ih =>
    obtain ⟨k, v⟩ := kv
    intro h pr hpr
    simp only [noEmptyKeyEntries, Bool.and_eq_true, decide_eq_true_eq] at h
    obtain ⟨⟨hk, hv⟩, hrest⟩ := h
    cases v <;>
      (simp only [preorderEntries, List.mem_append, List.mem_singleton,
        List.mem_map] at hpr
       rcases hpr with hpr | hpr)
    case str.inl => exact ⟨k, [], by simp [hpr], hk⟩
    case str.inr => exact ih hrest pr hpr
    case obj.inl =>
      obtain ⟨q, _, hq⟩ := hpr
      exact ⟨k, q.1, by simp [← hq], hk⟩
    case obj.inr => exact ih hrest pr hpr
    case num.inl =>
      obtain ⟨q, hq0, hq⟩ := hpr
      simp [preorderLeaves] at hq0
    case num.inr => exact ih hrest pr hpr
    case bool.inl =>
      obtain ⟨q, hq0, hq⟩ := hpr
      simp [preorderLeaves] at hq0
    case bool.inr => exact ih hrest pr hpr
    case arr.inl =>
      obtain ⟨q, hq0, hq⟩ := hpr
      simp [preorderLeaves] at hq0
    case arr.inr => exact ih hrest pr hpr
    case null.inl =>
      obtain ⟨q, hq0, hq⟩ := hpr
      simp [preorderLeaves] at hq0
    case null.inr => exact ih hrest pr hpr

theorem extendPath_ne_empty : ∀ (ks : List String) (p : String), p ≠ "" →
    extendPath p ks = dotJoined (p :: ks)
  | [], p, hp => by simp [extendPath, dotJoined]
  | k :: ks, p, hp => by
    have hne : p ++ "." ++ k ≠ "" := by
      intro hcontra
      have hlen := congrArg String.length hcontra
      rw [String.length_append, String.length_append] at hlen
      have h1 : ("." : String).length = 1 := rfl
      have h0 : ("" : String).length = 0 := rfl
      omega
    rw [extendPath_cons, if_neg hp, extendPath_ne_empty ks (p ++ "." ++ k) hne]
    cases ks with
    | nil => simp [dotJoined]
    | cons m ms => simp [dotJoined, String.append_assoc]

/-! ### Lemmas about the batch runner -/

theorem runLoop_event_shapes (o : Oracles) (topic : String) (n : Nat) :
    ∀ (cmds : List (String × String)) (i : Nat) (e : Event),
      e ∈ runLoop o topic n i cmds →
      (∃ nm, e = Event.sendCall nm) ∨ (∃ tp p, e = Event.publishAttempt tp p)
      ∨ (∃ nm, e = Event.warnFailed nm) ∨ e = Event.prompt := by
  intro cmds
  induction cmds with
  | nil => intro i e he; simp [runLoop] at he
  | cons c rest ih =>
    intro i e he
    obtain ⟨name, data⟩ := c
    simp only [runLoop] at he
    by_cases hab : o.abortAt = some i
    · rw [if_pos hab] at he; simp at he
    · rw [if_neg hab] at he
      simp only [List.mem_append] at he
      rcases he with (he | he) | he
      · by_cases hc : o.connectedAt i
        · simp [ToshibaMQTTTester.send_command, hc] at he
          rcases he with he | he
          · exact Or.inl ⟨_, he⟩
          · exact Or.inr (Or.inl ⟨_, _, he⟩)
        · simp [ToshibaMQTTTester.send_command, hc] at he
          exact Or.inl ⟨_, he⟩
      · by_cases hs : (ToshibaMQTTTester.send_command o i topic name data).2
        · rw [if_pos hs] at he; simp at he
        · rw [if_neg hs] at he
          simp at he
          exact Or.inr (Or.inr (Or.inl ⟨_, he⟩))
      · by_cases hin : i < n
        · rw [if_pos hin] at he
          rcases List.mem_cons.mp he with he | he
          · exact Or.inr (Or.inr (Or.inr he))
          · by_cases hu : o.userContinues i
            · rw [if_pos hu] at he; exact ih (i + 1) e he
            · rw [if_neg hu] at he; simp at he
        · rw [if_neg hin] at he
          exact ih (i + 1) e he

theorem runLoop_no_loopStop (o : Oracles) (topic : String) (n i : Nat)
    (cmds : List (String × String)) :
    Event.loopStop ∉ runLoop o topic n i cmds := by
  intro hmem
  rcases runLoop_event_shapes o topic n cmds i _ hmem with
    ⟨_, h⟩ | ⟨_, _, h⟩ | ⟨_, h⟩ | h <;> exact absurd h (by simp)

theorem runLoop_no_clientDisconnect (o : Oracles) (topic : String) (n i : Nat)
    (cmds : List (String × String)) :
    Event.clientDisconnect ∉ runLoop o topic n i cmds := by
  intro hmem
  rcases runLoop_event_shapes o topic n cmds i _ hmem with
    ⟨_, h⟩ | ⟨_, _, h⟩ | ⟨_, h⟩ | h <;> exact absurd h (by simp)

theorem runLoop_append (o : Oracles) (topic : String) (n : Nat) :
    ∀ (a b : List (String × String)) (s : Nat),
      (∀ j, s ≤ j → j < s + a.length → o.userContinues j = true) →
      (∀ j, s ≤ j → j < s + a.length → o.abortAt ≠ some j) →
      ∃ pre, runLoop o topic n s (a ++ b)
        = pre ++ runLoop o topic n (s + a.length) b := by
  intro a
  induction a with
  | nil =>
    intro b s _ _
    exact ⟨[], by simp⟩
  | cons c a' ih =>
    intro b s hcont habort
    obtain ⟨name, data⟩ := c
    have hab : ¬ o.abortAt = some s :=
      habort s le_rfl (by simp only [List.length_cons]; omega)
    obtain ⟨pre', hpre'⟩ := ih b (s + 1)
      (fun j h1 h2 => hcont j (by omega) (by simp only [List.length_cons]; omega))
      (fun j h1 h2 => habort j (by omega) (by simp only [List.length_cons]; omega))
    have hlen : s + ((name, data) :: a').length = s + 1 + a'.length := by
      simp only [List.length_cons]; omega
    by_cases hin : s < n
    · have hcs : o.userContinues s = true :=
        hcont s le_rfl (by simp only [List.length_cons]; omega)
      refine ⟨(ToshibaMQTTTester.send_command o s topic name data).1
        ++ (if (ToshibaMQTTTester.send_command o s topic name data).2 then []
            else [Event.warnFailed name])
        ++ (Event.prompt :: pre'), ?_⟩
      rw [hlen, List.cons_append]
      simp only [runLoop, if_neg hab, if_pos hin, hcs, if_true]
      rw [hpre']
      simp [List.append_assoc]
    · refine ⟨(ToshibaMQTTTester.send_command o s topic name data).1
        ++ (if (ToshibaMQTTTester.send_command o s topic name data).2 then []
            else [Event.warnFailed name])
        ++ pre', ?_⟩
      rw [hlen, List.cons_append]
      simp only [runLoop, if_neg hab, if_neg hin]
      rw [hpre']
      simp [List.append_assoc]

theorem runLoop_cons_sendCall (o : Oracles) (topic : String) (n j : Nat)
    (name data : String) (rest : List (String × String))
    (hab : ¬ o.abortAt = some j) :
    ∃ tail, runLoop o topic n j ((name, data) :: rest)
      = Event.sendCall name :: tail := by
  by_cases hc : o.connectedAt j
  · refine ⟨Event.publishAttempt topic (json_dumps_single_str "ir_code_to_send" data) ::
      ((if o.pubRcOk j then [] else [Event.warnFailed name])
        ++ (if j < n then
              Event.prompt ::
                (if o.userContinues j then runLoop o topic n (j + 1) rest else [])
            else runLoop o topic n (j + 1) rest)), ?_⟩
    simp [runLoop, if_neg hab, ToshibaMQTTTester.send_command, if_pos hc]
  · refine ⟨Event.warnFailed name ::
      (if j < n then
        Event.prompt ::
          (if o.userContinues j then runLoop o topic n (j + 1) rest else [])
       else runLoop o topic n (j + 1) rest), ?_⟩
    simp [runLoop, if_neg hab, ToshibaMQTTTester.send_command, if_neg hc]

theorem runLoop_cons_eq (o : Oracles) (topic : String) (n i : Nat)
    (name data : String) (rest : List (String × String)) :
    runLoop o topic n i ((name, data) :: rest)
      = if o.abortAt = some i then []
        else (ToshibaMQTTTester.send_command o i topic name data).1
          ++ (if (ToshibaMQTTTester.send_command o i topic name data).2 then []
              else [Event.warnFailed name])
          ++ (if i < n then
                Event.prompt ::
                  (if o.userContinues i then runLoop o topic n (i + 1) rest else [])
              else runLoop o topic n (i + 1) rest) := by
  simp only [runLoop]

theorem connect_wait_times_out (cb : Option Nat) :
    ∀ (fuel elapsed : Nat), (∀ t, cb = some t → elapsed + fuel < t) →
      connect_wait cb elapsed fuel = false := by
  intro fuel
  induction fuel with
  | zero =>
    intro elapsed h
    simp only [connect_wait]
    cases cb with
    | none => rfl
    | some t =>
      have ht := h t rfl
      simp only [connected_after, decide_eq_false_iff_not]
      omega
  | succ f ih =>
    intro elapsed h
    have hguard : connected_after cb elapsed = false := by
      cases cb with
      | none => rfl
      | some t =>
        have ht := h t rfl
        simp only [connected_after, decide_eq_false_iff_not]
        omega
    simp only [connect_wait, hguard, Bool.false_eq_true, if_false]
    exact ih (elapsed + 1) (fun t ht => by have := h t ht; omega)

theorem countSendCalls_send_command (o : Oracles) (i : Nat) (topic nm dt : String) :
    countSendCalls (ToshibaMQTTTester.send_command o i topic nm dt).1 = 1 := by
  by_cases hc : o.connectedAt i <;>
    simp [ToshibaMQTTTester.send_command, hc, countSendCalls]

/-- Values that are neither strings nor mappings: the flattening walks
straight past them. -/
def skipsValue : JValue → Bool
  | .str _ => false
  | .obj _ => false
  | _ => true

/-! ### Concrete environments used by witnesses and counterexamples -/

/-- Broker acknowledges immediately, every publish succeeds, the operator
always continues, nothing interrupts. -/
def oracle_happy : Oracles :=
  ⟨some 0, fun _ => true, fun _ => true, fun _ => true, none⟩

/-- Broker never acknowledges the connection. -/
def oracle_never_connects : Oracles :=
  ⟨none, fun _ => true, fun _ => true, fun _ => true, none⟩

/-- Connection fine, but every publish returns a failing return code. -/
def oracle_pub_fails : Oracles :=
  ⟨some 0, fun _ => true, fun _ => false, fun _ => true, none⟩

/-- Connection fine, publishes fine, but the operator quits at the first
prompt. -/
def oracle_quit_first : Oracles :=
  ⟨some 0, fun _ => true, fun _ => true, fun _ => false, none⟩

/-! ### The claims -/

/-- Claim C1 (the code defeats it): `get_controller` never consults the
kind registry — both declared kinds construct a `UFOR11Controller`, whose
`send` wraps the payload in the UFO-R11 JSON object, so the two kinds
collapse onto the same send behaviour instead of resolving to distinct
variants. -/
theorem get_controller_always_ufor11 :
    get_controller MQTT_CONTROLLER ENC_RAW "topic/t" 5
      = .ok ⟨.UFOR11Controller, MQTT_CONTROLLER, ENC_RAW, "topic/t", 5⟩
    ∧ get_controller UFOR11_CONTROLLER ENC_RAW "topic/t" 5
      = .ok ⟨.UFOR11Controller, UFOR11_CONTROLLER, ENC_RAW, "topic/t", 5⟩
    ∧ ControllerState.send
        ⟨.UFOR11Controller, MQTT_CONTROLLER, ENC_RAW, "topic/t", 5⟩ "AABB"
      = ControllerState.send
        ⟨.UFOR11Controller, UFOR11_CONTROLLER, ENC_RAW, "topic/t", 5⟩ "AABB" :=
  ⟨rfl, rfl, rfl⟩

/-- Claim C2 (the code defeats it): a controller kind outside the registry
is not rejected: `get_controller` happily returns a `UFOR11Controller`
for the unknown kind "SOMETHING" instead of raising the
"The controller is not supported." error. -/
theorem get_controller_unknown_kind_not_rejected :
    controllers_registry.lookup "SOMETHING" = none
    ∧ get_controller "SOMETHING" ENC_RAW "topic/t" 0
      = .ok ⟨.UFOR11Controller, "SOMETHING", ENC_RAW, "topic/t", 0⟩ :=
  ⟨rfl, rfl⟩

/-- Claim C3: constructing either controller variant with an encoding
outside its supported set fails with that variant's unsupported-encoding
error, and the construction performs no publish — the check precedes any
network action. -/
theorem init_rejects_unsupported_encoding (v : ControllerVariant)
    (c e cd : String) (d : Nat) (h : e ∉ supported_encodings v) :
    (AbstractController.init v c e cd d).1
      = .error (unsupported_encoding_message v)
    ∧ (AbstractController.init v c e cd d).2 = [] := by
  cases v with
  | MQTTController =>
    simp only [supported_encodings] at h
    simp [AbstractController.init, check_encoding, MQTTController.check_encoding,
      unsupported_encoding_message, h]
  | UFOR11Controller =>
    simp only [supported_encodings] at h
    simp [AbstractController.init, check_encoding, UFOR11Controller.check_encoding,
      unsupported_encoding_message, h]

theorem init_rejects_unsupported_encoding_witness :
    ENC_HEX ∉ supported_encodings ControllerVariant.MQTTController
    ∧ ((AbstractController.init ControllerVariant.MQTTController MQTT_CONTROLLER
          ENC_HEX "topic/t" 0).1
        = .error (unsupported_encoding_message ControllerVariant.MQTTController)
      ∧ (AbstractController.init ControllerVariant.MQTTController MQTT_CONTROLLER
          ENC_HEX "topic/t" 0).2 = []) :=
  ⟨by decide, init_rejects_unsupported_encoding ControllerVariant.MQTTController
      MQTT_CONTROLLER ENC_HEX "topic/t" 0 (by decide)⟩

/-- Claim C4: for every payload `p`, the generic controller's `send`
performs exactly one publish with payload exactly `p`, and the UFO-R11
variant's `send` performs exactly one publish whose payload is the JSON
serialization of the one-key object binding "ir_code_to_send" to `p`;
both publish to the configured `controller_data` topic. -/
theorem send_publishes_exactly_one (s : ControllerState) (p : String) :
    MQTTController.send s p = [⟨s.controller_data, p⟩]
    ∧ UFOR11Controller.send s p
      = [⟨s.controller_data, json_dumps_single_str "ir_code_to_send" p⟩]
    ∧ (MQTTController.send s p).length = 1
    ∧ (UFOR11Controller.send s p).length = 1 :=
  ⟨rfl, rfl, rfl, rfl⟩

theorem json_dumps_single_str_eval :
    json_dumps_single_str "ir_code_to_send" "AABB"
      = "\x7b\"ir_code_to_send\": \"AABB\"\x7d" := rfl

/-- Claim C5 counterexample: in the table with the empty-string key above
a leaf, the pre-order key sequence to the single leaf is `["", "b"]`, the
dot-joined path is ".b", but the code emits path "b": the emitted path is
not the dot-joined root-to-leaf key sequence. -/
theorem extract_path_not_dotjoined_counterexample :
    extract_all_commands (JValue.obj [("", JValue.obj [("b", JValue.str "X")])])
      = [("b", "X")]
    ∧ preorderLeaves (JValue.obj [("", JValue.obj [("b", JValue.str "X")])])
      = [(["", "b"], "X")]
    ∧ dotJoined ["", "b"] = ".b"
    ∧ ("b" : String) ≠ ".b" :=
  ⟨rfl, rfl, rfl, by decide⟩

/-- Claim C5 (amended): flattening a table returns exactly
`countStringLeaves` pairs, in pre-order depth-first order following the
table's own key order; each leaf is paired with the fold of its key
sequence in which a key is appended after a dot unless the accumulated
path is empty (in which case the key replaces it); whenever no key in
the table is the empty string, that fold coincides with the dot-joined
key sequence, as the claim states. -/
theorem extract_all_commands_preorder (t : JValue) :
    extract_all_commands t
      = (preorderLeaves t).map (fun pr => (extendPath "" pr.1, pr.2))
    ∧ (extract_all_commands t).length = countStringLeaves t
    ∧ (noEmptyKey t = true →
        extract_all_commands t
          = (preorderLeaves t).map (fun pr => (dotJoined pr.1, pr.2))) := by
  have h1 := extract_recursive_eq t ""
  refine ⟨h1, ?_, ?_⟩
  · rw [extract_all_commands, h1, List.length_map, preorderLeaves_length]
  · intro hk
    rw [extract_all_commands, h1]
    apply List.map_congr_left
    intro pr hpr
    have hhead : ∃ k ks, pr.1 = k :: ks ∧ k ≠ "" := by
      cases t with
      | obj es =>
        exact preorderEntries_head_key es (by simpa [noEmptyKey] using hk) pr
          (by simpa [preorderLeaves] using hpr)
      | str s => simp [preorderLeaves] at hpr
      | num n => simp [preorderLeaves] at hpr
      | bool b => simp [preorderLeaves] at hpr
      | arr l => simp [preorderLeaves] at hpr
      | null => simp [preorderLeaves] at hpr
    obtain ⟨k, ks, hpr1, hkne⟩ := hhead
    have hjoin : extendPath "" (k :: ks) = dotJoined (k :: ks) := by
      rw [extendPath_cons, if_pos rfl, extendPath_ne_empty ks k hkne]
    simp [hpr1, hjoin]

/-- A small well-formed table used to instantiate the flattening claim. -/
def table_ex : JValue :=
  JValue.obj [("climate", JValue.obj [("on", JValue.str "A"),
    ("off", JValue.str "B")]), ("power", JValue.str "C")]

theorem extract_all_commands_preorder_witness :
    noEmptyKey table_ex = true
    ∧ extract_all_commands table_ex
      = (preorderLeaves table_ex).map (fun pr => (extendPath "" pr.1, pr.2))
    ∧ (extract_all_commands table_ex).length = countStringLeaves table_ex
    ∧ extract_all_commands table_ex
      = (preorderLeaves table_ex).map (fun pr => (dotJoined pr.1, pr.2)) :=
  ⟨by decide, (extract_all_commands_preorder table_ex).1,
   (extract_all_commands_preorder table_ex).2.1,
   (extract_all_commands_preorder table_ex).2.2 (by decide)⟩

/-- Claim C6 counterexample: the table `\x7b"a": 42\x7d` is a non-empty
mapping that flattens to zero commands, yet the run's trace contains a
connection attempt — the runner does not stop before touching the
transport. -/
theorem zero_commands_still_connects_counterexample :
    extract_all_commands (JValue.obj [("a", JValue.num 42)]) = []
    ∧ (main oracle_happy "smartir/send_command" [("a", JValue.num 42)]).1
      = [Event.connectAttempt, Event.loopStop, Event.clientDisconnect]
    ∧ Event.connectAttempt
        ∈ (main oracle_happy "smartir/send_command" [("a", JValue.num 42)]).1 :=
  ⟨rfl, rfl, by decide⟩

/-- Claim C6 (amended): the runner stops (exit status 1) before any
connection attempt only when the commands mapping is empty — the code's
`if not commands` check; any run whose table flattens to zero commands
performs zero send calls and zero publish attempts, but a non-empty
mapping with zero string leaves still proceeds to connect. -/
theorem main_zero_commands_no_publish (o : Oracles) (topic : String)
    (cs : List (String × JValue))
    (h : extract_all_commands (JValue.obj cs) = []) :
    (∀ tp p, Event.publishAttempt tp p ∉ (main o topic cs).1)
    ∧ (∀ nm, Event.sendCall nm ∉ (main o topic cs).1)
    ∧ (cs = [] →
        (main o topic cs).2 = 1 ∧ Event.connectAttempt ∉ (main o topic cs).1) := by
  cases cs with
  | nil => refine ⟨?_, ?_, ?_⟩ <;> simp [main]
  | cons c cs' =>
    by_cases hc : ToshibaMQTTTester.connect o
    · have hmain : (main o topic (c :: cs')).1
          = [Event.connectAttempt, Event.loopStop, Event.clientDisconnect] := by
        simp [main, hc, h, runLoop, ToshibaMQTTTester.disconnect]
      refine ⟨?_, ?_, ?_⟩
      · intro tp p; rw [hmain]; simp
      · intro nm; rw [hmain]; simp
      · intro hcs; exact absurd hcs (by simp)
    · have hmain : main o topic (c :: cs') = ([Event.connectAttempt], 1) := by
        simp [main, hc]
      refine ⟨?_, ?_, ?_⟩
      · intro tp p; rw [hmain]; simp
      · intro nm; rw [hmain]; simp
      · intro hcs; exact absurd hcs (by simp)

theorem main_zero_commands_no_publish_witness :
    extract_all_commands (JValue.obj ([] : List (String × JValue))) = []
    ∧ (∀ tp p, Event.publishAttempt tp p ∉ (main oracle_happy "t" []).1)
    ∧ (∀ nm, Event.sendCall nm ∉ (main oracle_happy "t" []).1)
    ∧ ((main oracle_happy "t" ([] : List (String × JValue))).2 = 1
        ∧ Event.connectAttempt ∉ (main oracle_happy "t" []).1) :=
  ⟨rfl, (main_zero_commands_no_publish oracle_happy "t" [] rfl).1,
   (main_zero_commands_no_publish oracle_happy "t" [] rfl).2.1,
   (main_zero_commands_no_publish oracle_happy "t" [] rfl).2.2 rfl⟩

/-- Claim C7: in a run that has continued through the first
`front.length` commands, whatever the outcome of command
`front.length + 1` — in particular when its publish fails, which the
loop records as a warning and never raises past — the runner still
prompts after it and the very next event is the send call for command
`front.length + 2`. -/
theorem publish_failure_does_not_abort (o : Oracles) (topic : String)
    (front back : List (String × String)) (nameI dataI nameJ dataJ : String)
    (hcont : ∀ j, 1 ≤ j → j ≤ front.length + 1 → o.userContinues j = true)
    (habort : ∀ j, 1 ≤ j → j ≤ front.length + 2 → o.abortAt ≠ some j) :
    (∃ pre post,
      runLoop o topic (front ++ (nameI, dataI) :: (nameJ, dataJ) :: back).length 1
          (front ++ (nameI, dataI) :: (nameJ, dataJ) :: back)
        = pre ++ Event.prompt :: Event.sendCall nameJ :: post)
    ∧ (o.pubRcOk (front.length + 1) = false →
       ∃ pre post,
        runLoop o topic (front ++ (nameI, dataI) :: (nameJ, dataJ) :: back).length 1
            (front ++ (nameI, dataI) :: (nameJ, dataJ) :: back)
          = pre ++ Event.warnFailed nameI :: Event.prompt ::
              Event.sendCall nameJ :: post) := by
  set n := (front ++ (nameI, dataI) :: (nameJ, dataJ) :: back).length with hn
  obtain ⟨pre0, hpre0⟩ := runLoop_append o topic n front
    ((nameI, dataI) :: (nameJ, dataJ) :: back) 1
    (fun j hj1 hj2 => hcont j hj1 (by omega))
    (fun j hj1 hj2 => habort j hj1 (by omega))
  set i := 1 + front.length with hi
  have habI : ¬ o.abortAt = some i := habort i (by omega) (by omega)
  have habJ : ¬ o.abortAt = some (i + 1) := habort (i + 1) (by omega) (by omega)
  have hinI : i < n := by
    rw [hn]
    simp only [List.length_append, List.length_cons]
    omega
  have hcI : o.userContinues i = true := hcont i (by omega) (by omega)
  obtain ⟨tailJ, htailJ⟩ := runLoop_cons_sendCall o topic n (i + 1) nameJ dataJ back habJ
  have hiter : runLoop o topic n i ((nameI, dataI) :: (nameJ, dataJ) :: back)
      = (ToshibaMQTTTester.send_command o i topic nameI dataI).1
        ++ (if (ToshibaMQTTTester.send_command o i topic nameI dataI).2 then []
            else [Event.warnFailed nameI])
        ++ (Event.prompt :: (Event.sendCall nameJ :: tailJ)) := by
    rw [runLoop_cons_eq, if_neg habI, if_pos hinI, htailJ, hcI]
    simp
  constructor
  · refine ⟨pre0 ++ (ToshibaMQTTTester.send_command o i topic nameI dataI).1
      ++ (if (ToshibaMQTTTester.send_command o i topic nameI dataI).2 then []
          else [Event.warnFailed nameI]), tailJ, ?_⟩
    rw [hpre0, hiter]
    simp [List.append_assoc]
  · intro hfail
    have hfail' : o.pubRcOk i = false := by
      rw [hi, Nat.add_comm]; exact hfail
    have hsnd : (ToshibaMQTTTester.send_command o i topic nameI dataI).2 = false := by
      by_cases hc : o.connectedAt i <;>
        simp [ToshibaMQTTTester.send_command, hc, hfail']
    refine ⟨pre0 ++ (ToshibaMQTTTester.send_command o i topic nameI dataI).1,
      tailJ, ?_⟩
    rw [hpre0, hiter, hsnd]
    simp [List.append_assoc]

theorem publish_failure_does_not_abort_witness :
    oracle_pub_fails.pubRcOk 1 = false
    ∧ (∃ pre post,
        runLoop oracle_pub_fails "t" 2 1 [("a.b", "X1"), ("a.c", "X2")]
          = pre ++ Event.prompt :: Event.sendCall "a.c" :: post)
    ∧ (∃ pre post,
        runLoop oracle_pub_fails "t" 2 1 [("a.b", "X1"), ("a.c", "X2")]
          = pre ++ Event.warnFailed "a.b" :: Event.prompt ::
              Event.sendCall "a.c" :: post) :=
  ⟨rfl,
   (publish_failure_does_not_abort oracle_pub_fails "t" [] [] "a.b" "X1" "a.c" "X2"
      (fun _ _ _ => rfl) (fun _ _ _ hx => Option.noConfusion hx)).1,
   (publish_failure_does_not_abort oracle_pub_fails "t" [] [] "a.b" "X1" "a.c" "X2"
      (fun _ _ _ => rfl) (fun _ _ _ hx => Option.noConfusion hx)).2 rfl⟩

/-- Claim C8: on every run that reaches a successful connect (non-empty
mapping, connect returns true), the trace contains exactly one
`loop_stop` and exactly one client disconnect, however the loop ends;
and when the operator quits at the first prompt of a run with at least
one command, exactly one command send is attempted. -/
theorem teardown_exactly_once (o : Oracles) (topic : String)
    (commands : List (String × JValue))
    (h1 : commands ≠ []) (h2 : ToshibaMQTTTester.connect o = true) :
    ((main o topic commands).1.count Event.loopStop = 1)
    ∧ ((main o topic commands).1.count Event.clientDisconnect = 1)
    ∧ (o.abortAt = none → o.userContinues 1 = false →
        1 ≤ (extract_all_commands (JValue.obj commands)).length →
        countSendCalls (main o topic commands).1 = 1) := by
  obtain ⟨c, cs, rfl⟩ : ∃ c cs, commands = c :: cs := by
    cases commands with
    | nil => exact absurd rfl h1
    | cons c cs => exact ⟨c, cs, rfl⟩
  have hmain : main o topic (c :: cs)
      = (Event.connectAttempt ::
          (runLoop o topic (extract_all_commands (JValue.obj (c :: cs))).length 1
            (extract_all_commands (JValue.obj (c :: cs)))
           ++ ToshibaMQTTTester.disconnect), 0) := by
    simp [main, h2]
  rw [hmain]
  refine ⟨?_, ?_, ?_⟩
  · have hz := List.count_eq_zero.mpr (runLoop_no_loopStop o topic
      (extract_all_commands (JValue.obj (c :: cs))).length 1
      (extract_all_commands (JValue.obj (c :: cs))))
    simp [List.count_cons, List.count_append, ToshibaMQTTTester.disconnect, hz]
  · have hz := List.count_eq_zero.mpr (runLoop_no_clientDisconnect o topic
      (extract_all_commands (JValue.obj (c :: cs))).length 1
      (extract_all_commands (JValue.obj (c :: cs))))
    simp [List.count_cons, List.count_append, ToshibaMQTTTester.disconnect, hz]
  · intro habort hquit hlen
    obtain ⟨d, rest, hall⟩ :
        ∃ d rest, extract_all_commands (JValue.obj (c :: cs)) = d :: rest := by
      cases hx : extract_all_commands (JValue.obj (c :: cs)) with
      | nil => rw [hx] at hlen; simp at hlen
      | cons d rest => exact ⟨d, rest, rfl⟩
    obtain ⟨nm, dt⟩ := d
    rw [hall]
    have hab1 : ¬ o.abortAt = some 1 := by rw [habort]; simp
    by_cases hin : 1 < ((nm, dt) :: rest).length
    · have hin' : 0 < rest.length := by
        simp only [List.length_cons] at hin; omega
      by_cases hc1 : o.connectedAt 1 <;> by_cases hr : o.pubRcOk 1 <;>
        simp [runLoop, if_neg hab1, hin', hquit,
          ToshibaMQTTTester.send_command, hc1, hr, countSendCalls,
          ToshibaMQTTTester.disconnect, List.filter_append]
    · have hrest : rest = [] := by
        simp only [List.length_cons] at hin
        have : rest.length = 0 := by omega
        exact List.length_eq_zero.mp this
      subst hrest
      by_cases hc1 : o.connectedAt 1 <;> by_cases hr : o.pubRcOk 1 <;>
        simp [runLoop, if_neg hab1, hquit,
          ToshibaMQTTTester.send_command, hc1, hr, countSendCalls,
          ToshibaMQTTTester.disconnect, List.filter_append]

theorem teardown_exactly_once_witness :
    ((main oracle_quit_first "t"
        [("power", JValue.obj [("on", JValue.str "A"), ("off", JValue.str "B")])]).1.count
      Event.loopStop = 1)
    ∧ ((main oracle_quit_first "t"
        [("power", JValue.obj [("on", JValue.str "A"), ("off", JValue.str "B")])]).1.count
      Event.clientDisconnect = 1)
    ∧ countSendCalls (main oracle_quit_first "t"
        [("power", JValue.obj [("on", JValue.str "A"), ("off", JValue.str "B")])]).1 = 1 :=
  ⟨(teardown_exactly_once oracle_quit_first "t"
      [("power", JValue.obj [("on", JValue.str "A"), ("off", JValue.str "B")])]
      (by simp) rfl).1,
   (teardown_exactly_once oracle_quit_first "t"
      [("power", JValue.obj [("on", JValue.str "A"), ("off", JValue.str "B")])]
      (by simp) rfl).2.1,
   (teardown_exactly_once oracle_quit_first "t"
      [("power", JValue.obj [("on", JValue.str "A"), ("off", JValue.str "B")])]
      (by simp) rfl).2.2 rfl rfl (by decide)⟩

/-- Claim C9: when the connected-callback does not fire within the
10-second bound (20 half-second polls), the run fails: the process exit
status is non-zero and the trace contains no send call and no publish
attempt. -/
theorem connect_timeout_aborts (o : Oracles) (topic : String)
    (cs : List (String × JValue))
    (h : ∀ t, o.callbackAt = some t → CONNECT_TIMEOUT_STEPS < t) :
    (main o topic cs).2 ≠ 0
    ∧ (∀ nm, Event.sendCall nm ∉ (main o topic cs).1)
    ∧ (∀ tp p, Event.publishAttempt tp p ∉ (main o topic cs).1) := by
  have hconn : ToshibaMQTTTester.connect o = false :=
    connect_wait_times_out o.callbackAt CONNECT_TIMEOUT_STEPS 0
      (fun t ht => by have := h t ht; omega)
  cases cs with
  | nil => refine ⟨?_, ?_, ?_⟩ <;> simp [main]
  | cons c cs' =>
    have hmain : main o topic (c :: cs') = ([Event.connectAttempt], 1) := by
      simp [main, hconn]
    rw [hmain]
    refine ⟨by simp, ?_, ?_⟩ <;> intros <;> simp

theorem connect_timeout_aborts_witness :
    (main oracle_never_connects "t" [("a", JValue.str "X")]).2 ≠ 0
    ∧ (∀ nm, Event.sendCall nm
        ∉ (main oracle_never_connects "t" [("a", JValue.str "X")]).1)
    ∧ (∀ tp p, Event.publishAttempt tp p
        ∉ (main oracle_never_connects "t" [("a", JValue.str "X")]).1) :=
  connect_timeout_aborts oracle_never_connects "t" [("a", JValue.str "X")]
    (fun _ ht => Option.noConfusion ht)

/-- Claim C10: an entry whose value is neither a string nor a mapping
(a number, a boolean, an array, or null) contributes no command and
raises no error: the flattening of a table containing it equals the
flattening of the table without it. -/
theorem extract_skips_non_string_non_mapping (pre post : List (String × JValue))
    (k : String) (v : JValue) (h : skipsValue v = true) :
    extract_all_commands (JValue.obj (pre ++ (k, v) :: post))
      = extract_all_commands (JValue.obj (pre ++ post)) := by
  have hmid : ∀ path, extract_entries ((k, v) :: post) path
      = extract_entries post path := by
    intro path
    cases v with
    | str s => simp [skipsValue] at h
    | obj es => simp [skipsValue] at h
    | num n => simp [extract_entries, extract_recursive]
    | bool b => simp [extract_entries, extract_recursive]
    | arr l => simp [extract_entries, extract_recursive]
    | null => simp [extract_entries, extract_recursive]
  simp [extract_all_commands, extract_recursive, extract_entries_append, hmid]

theorem extract_skips_non_string_non_mapping_witness :
    skipsValue (JValue.arr [JValue.str "inner"]) = true
    ∧ extract_all_commands (JValue.obj [("a", JValue.str "A"),
        ("middle", JValue.arr [JValue.str "inner"]), ("z", JValue.str "Z")])
      = extract_all_commands
          (JValue.obj [("a", JValue.str "A"), ("z", JValue.str "Z")]) :=
  ⟨rfl, extract_skips_non_string_non_mapping [("a", JValue.str "A")]
    [("z", JValue.str "Z")] "middle" (JValue.arr [JValue.str "inner"]) rfl⟩

end SmartIR
